import Mathlib

/-!
Verification of the Goldback platform core against its specification.

The definitions below are a shallow embedding of the two core modules,
`app/goldbach_engine.py` and `app/backtester.py`.  Prices and monetary
amounts are modelled as rationals, Python `int()` truncation and `//`
floor division are made explicit, and the bar-by-bar backtest loop is
modelled as a fold over an explicit state.  Randomness (the Monte Carlo
shuffles) is modelled by quantifying over the list of permutations that
`np.random.permutation` produced.
-/

namespace Goldback

/-! ## Enumerations (from goldbach_engine.py) -/

inductive Bias where
  | BULLISH | BEARISH | NEUTRAL
deriving DecidableEq, Repr

inductive Layer where
  | LIQUIDITY | FLOW | REBALANCE
deriving DecidableEq, Repr

inductive TradePlan where
  | EINSTEIN | LIQUIDITY | FLOW_CONTINUATION | FLOW_REJECTION | REBALANCE | STOP_RUN
deriving DecidableEq, Repr

inductive AMDCycle where
  | ASIAN | MANIPULATION | DISTRIBUTION_1 | DISTRIBUTION_2
deriving DecidableEq, Repr

/-- PO3 bracket sizes (powers of 3), `PO3_SIZES` in the source. -/
def PO3_SIZES : List ℤ := [3, 9, 27, 81, 243, 729, 2187, 6561]

/-- `DEFAULT_PO3` in the source. -/
def DEFAULT_PO3 : ℤ := 729

/-- `GOLDBACH_NUMBERS` in the source: the special hour+minute sums. -/
def GOLDBACH_NUMBERS : List ℕ := [3, 11, 17, 29, 41, 47, 53, 59, 71, 83, 89, 97]

/-! ## PO3 ranges -/

/-- Python `int()` applied to a rational: truncation toward zero. -/
def pyInt (q : ℚ) : ℤ := if q < 0 then ⌈q⌉ else ⌊q⌋

/-- `PO3Range` dataclass (the `levels` list is not needed by any claim). -/
structure PO3Range where
  rangeNum : ℤ
  low : ℚ
  high : ℚ
  size : ℤ
deriving DecidableEq, Repr

/-- `PO3Range.get_level_price`: `low + (level_pct / 100) * size`. -/
def getLevelPrice (r : PO3Range) (levelPct : ℤ) : ℚ :=
  r.low + ((levelPct : ℚ) / 100) * (r.size : ℚ)

/-- `PO3Range.get_position`: clamped 0–100 position of a price in the range. -/
def getPosition (r : PO3Range) (price : ℚ) : ℚ :=
  if price < r.low then 0
  else if price > r.high then 100
  else ((price - r.low) / (r.size : ℚ)) * 100

/-- `GoldbachEngine.calculate_range`.  Prices below 100 are scaled by 10000
before flooring and the bounds (but, as in the source, not the size) are
scaled back down; prices ≥ 100 are truncated to an integer directly. -/
def calculateRange (price : ℚ) (po3 : ℤ) : PO3Range :=
  let priceInt : ℤ := if price < 100 then pyInt (price * 10000) else pyInt price
  let rangeNum : ℤ := Int.fdiv priceInt po3
  let rangeLow : ℤ := rangeNum * po3
  let rangeHigh : ℤ := rangeLow + po3
  if price < 100 then
    { rangeNum := rangeNum, low := (rangeLow : ℚ) / 10000,
      high := (rangeHigh : ℚ) / 10000, size := po3 }
  else
    { rangeNum := rangeNum, low := (rangeLow : ℚ),
      high := (rangeHigh : ℚ), size := po3 }

/-- `GoldbachEngine._get_layer_for_position`. -/
def getLayerForPosition (position : ℚ) : Option Layer :=
  if position ≤ 17 ∨ 83 ≤ position then some Layer.LIQUIDITY
  else if (29 ≤ position ∧ position ≤ 35) ∨ (65 ≤ position ∧ position ≤ 71) then
    some Layer.FLOW
  else if 41 ≤ position ∧ position ≤ 59 then some Layer.REBALANCE
  else none

/-! ## Bias analysis -/

/-- `BiasAnalysis` dataclass (the textual `reasoning` list is omitted). -/
structure BiasAnalysis where
  bias : Bias
  confidence : ℤ
  gipLevel : ℤ
  position : ℚ
  layer : Layer
deriving DecidableEq, Repr

/-- The trend-alignment adjustment of `analyze_bias`: ±`min(|trend_days|*2, 10)`,
added when the trend direction matches the bias, subtracted otherwise,
and 0 when `trend_days == 0`. -/
def trendAdjust (bias : Bias) (trendDays : ℤ) : ℤ :=
  if trendDays = 0 then 0
  else if (0 < trendDays ∧ bias = Bias.BULLISH) ∨ (trendDays < 0 ∧ bias = Bias.BEARISH) then
    min (|trendDays| * 2) 10
  else
    -(min (|trendDays| * 2) 10)

/-- `GoldbachEngine.analyze_bias`.  The branch on position fixes bias, GIP
level and the +15 bonus exactly as the source's if/elif chain; the layer
bonus is +10 for LIQUIDITY, +5 for FLOW, 0 otherwise; confidence is clamped
to [40, 85]; a `None` layer is replaced by `Layer.FLOW` in the result. -/
def analyzeBias (price : ℚ) (po3 : ℤ) (trendDays : ℤ) : BiasAnalysis :=
  let r := calculateRange price po3
  let pos := getPosition r price
  let layerOpt := getLayerForPosition pos
  let bias :=
    if pos ≤ 17 then Bias.BULLISH
    else if 83 ≤ pos then Bias.BEARISH
    else if pos < 50 then Bias.BULLISH
    else if 50 < pos then Bias.BEARISH
    else Bias.NEUTRAL
  let gip : ℤ :=
    if pos ≤ 17 then 17
    else if 83 ≤ pos then 83
    else if pos < 50 then 17
    else if 50 < pos then 83
    else 50
  let conf1 : ℤ := 50 + (if pos ≤ 17 ∨ 83 ≤ pos then 15 else 0)
  let conf2 : ℤ := conf1 +
    (match layerOpt with
     | some Layer.LIQUIDITY => 10
     | some Layer.FLOW => 5
     | _ => 0)
  let conf3 : ℤ := conf2 + trendAdjust bias trendDays
  { bias := bias
    confidence := max 40 (min 85 conf3)
    gipLevel := gip
    position := pos
    layer := layerOpt.getD Layer.FLOW }

/-! ## Goldbach time -/

/-- The hour/minute part of `analyze_goldbach_time`: is `hour + minute`
one of the Goldbach numbers? -/
def isGoldbachSum (hour minute : ℕ) : Bool :=
  GOLDBACH_NUMBERS.contains (hour + minute)

/-- `GoldbachTime` dataclass (the `nearest_goldbach` field is not needed by
any claim and is omitted). -/
structure GBTime where
  time : ℕ
  hour : ℕ
  minute : ℕ
  sumValue : ℕ
  isGoldbach : Bool
deriving DecidableEq, Repr

/-- `analyze_goldbach_time` on an absolute wall-clock time measured in
minutes: the `datetime` is represented by its minute count, from which
`hour` and `minute` are recovered. -/
def analyzeGoldbachTimeAbs (t : ℕ) : GBTime :=
  let hour := (t / 60) % 24
  let minute := t % 60
  { time := t, hour := hour, minute := minute, sumValue := hour + minute,
    isGoldbach := isGoldbachSum hour minute }

/-- Whether the absolute minute `t` is a Goldbach time. -/
def isGoldbachMinute (t : ℕ) : Bool := (analyzeGoldbachTimeAbs t).isGoldbach

/-- Within the 1440-minute day cycle there is always a next Goldbach minute:
walking at most 1439 minutes past `t + 1` reaches a time congruent to
minute 3 of hour 0, whose sum 0 + 3 = 3 is a Goldbach number. -/
def goldbachMinuteExistsBounded (t : ℕ) :
    ∃ d, d < 1440 ∧ isGoldbachMinute (t + 1 + d) = true := by
  refine ⟨(1443 - (t + 1) % 1440) % 1440, by omega, ?_⟩
  have h24 : ((t + 1 + (1443 - (t + 1) % 1440) % 1440) / 60) % 24 = 0 := by omega
  have h60 : (t + 1 + (1443 - (t + 1) % 1440) % 1440) % 60 = 3 := by omega
  simp only [isGoldbachMinute, analyzeGoldbachTimeAbs, h24, h60]
  decide

/-- Unbounded form of `goldbachMinuteExistsBounded`, used to run the
minute-by-minute search. -/
def goldbachMinuteExists (t : ℕ) : ∃ d, isGoldbachMinute (t + 1 + d) = true :=
  match goldbachMinuteExistsBounded t with
  | ⟨d, _, h⟩ => ⟨d, h⟩

/-- The first Goldbach minute strictly after `t` — one pass of the
`while` loop of `get_next_goldbach_times`, which advances minute by
minute until `is_goldbach` holds. -/
def nextGoldbachMinute (t : ℕ) : ℕ :=
  t + 1 + Nat.find (goldbachMinuteExists t)

/-- `GoldbachEngine.get_next_goldbach_times`: collect the next `count`
Goldbach times after `fromTime`. -/
def getNextGoldbachTimes (fromTime : ℕ) : ℕ → List GBTime
  | 0 => []
  | count + 1 =>
    analyzeGoldbachTimeAbs (nextGoldbachMinute fromTime) ::
      getNextGoldbachTimes (nextGoldbachMinute fromTime) count

/-! ## AMD cycles and monthly partitions -/

/-- `GoldbachEngine.get_amd_cycle`, reduced to the cycle tag (the attached
strings play no role in any claim). -/
def getAmdCycle (hour : ℕ) : AMDCycle :=
  if (20 ≤ hour ∧ hour ≤ 23) ∨ hour < 3 then AMDCycle.ASIAN
  else if 3 ≤ hour ∧ hour < 9 then AMDCycle.MANIPULATION
  else if 9 ≤ hour ∧ hour < 12 then AMDCycle.DISTRIBUTION_1
  else AMDCycle.DISTRIBUTION_2

/-- `MONTHLY_PARTITIONS[month]["start_day"]`, with the `.get(month, {})`
default of 1 for out-of-range months. -/
def monthlyStartDay (month : ℕ) : ℕ :=
  match month with
  | 1 => 8 | 2 => 7 | 3 => 6 | 4 => 5 | 5 => 4 | 6 => 3
  | 7 => 2 | 8 => 1 | 9 => 9 | 10 => 8 | 11 => 7 | 12 => 6
  | _ => 1

/-- The `partition_day` computation of `get_monthly_partition_info`:
`day - start_day + 1` when `day >= start_day`, else 0. -/
def partitionDay (month day : ℕ) : ℕ :=
  if monthlyStartDay month ≤ day then day - monthlyStartDay month + 1 else 0

/-- Key partition days are 3, 11 and 17. -/
def isKeyDay (pd : ℕ) : Bool := pd ∈ [3, 11, 17]

/-! ## Trade plan selection -/

/-- One entry of the `targets` list returned by `_determine_trade_plan`
(the display name string is omitted). -/
structure Target where
  level : ℤ
  price : ℚ
deriving DecidableEq, Repr

/-- The `invalidation` dict (description string omitted). -/
structure Invalidation where
  level : ℤ
  price : ℚ
deriving DecidableEq, Repr

/-- The non-`None` payload of `_determine_trade_plan`'s result tuple. -/
structure PlanData where
  plan : TradePlan
  entryZone : ℚ × ℚ
  targets : List Target
  invalidation : Invalidation
deriving DecidableEq, Repr

/-- `GoldbachEngine._determine_trade_plan`: the priority-ordered,
first-match-wins rule table.  The source returns `(None, (0,0), [], {})`
when no rule fires; that is `none` here. -/
def determineTradePlan (r : PO3Range) (position : ℚ) (bias : BiasAnalysis) :
    Option PlanData :=
  if position ≤ 17 ∧ bias.bias = Bias.BULLISH then
    some { plan := TradePlan.EINSTEIN
           entryZone := (getLevelPrice r 11, getLevelPrice r 17)
           targets := [⟨47, getLevelPrice r 47⟩, ⟨59, getLevelPrice r 59⟩]
           invalidation := ⟨7, getLevelPrice r 7⟩ }
  else if 83 ≤ position ∧ bias.bias = Bias.BEARISH then
    some { plan := TradePlan.EINSTEIN
           entryZone := (getLevelPrice r 83, getLevelPrice r 89)
           targets := [⟨53, getLevelPrice r 53⟩, ⟨41, getLevelPrice r 41⟩]
           invalidation := ⟨93, getLevelPrice r 93⟩ }
  else if position ≤ 11 ∧ bias.bias = Bias.BULLISH then
    some { plan := TradePlan.LIQUIDITY
           entryZone := (getLevelPrice r 3, getLevelPrice r 11)
           targets := [⟨29, getLevelPrice r 29⟩, ⟨50, getLevelPrice r 50⟩]
           invalidation := ⟨0, r.low⟩ }
  else if 89 ≤ position ∧ bias.bias = Bias.BEARISH then
    some { plan := TradePlan.LIQUIDITY
           entryZone := (getLevelPrice r 89, getLevelPrice r 97)
           targets := [⟨71, getLevelPrice r 71⟩, ⟨50, getLevelPrice r 50⟩]
           invalidation := ⟨100, r.high⟩ }
  else if (29 ≤ position ∧ position ≤ 35) ∧ bias.bias = Bias.BULLISH then
    some { plan := TradePlan.FLOW_CONTINUATION
           entryZone := (getLevelPrice r 29, getLevelPrice r 35)
           targets := [⟨50, getLevelPrice r 50⟩, ⟨71, getLevelPrice r 71⟩]
           invalidation := ⟨17, getLevelPrice r 17⟩ }
  else if (65 ≤ position ∧ position ≤ 71) ∧ bias.bias = Bias.BEARISH then
    some { plan := TradePlan.FLOW_CONTINUATION
           entryZone := (getLevelPrice r 65, getLevelPrice r 71)
           targets := [⟨50, getLevelPrice r 50⟩, ⟨29, getLevelPrice r 29⟩]
           invalidation := ⟨83, getLevelPrice r 83⟩ }
  else if 41 ≤ position ∧ position ≤ 59 then
    if position ≤ 50 then
      some { plan := TradePlan.REBALANCE
             entryZone := (getLevelPrice r 41, getLevelPrice r 47)
             targets := [⟨53, getLevelPrice r 53⟩, ⟨59, getLevelPrice r 59⟩]
             invalidation := ⟨35, getLevelPrice r 35⟩ }
    else
      some { plan := TradePlan.REBALANCE
             entryZone := (getLevelPrice r 53, getLevelPrice r 59)
             targets := [⟨47, getLevelPrice r 47⟩, ⟨41, getLevelPrice r 41⟩]
             invalidation := ⟨65, getLevelPrice r 65⟩ }
  else none

/-! ## Signal strength and setup generation -/

inductive Strength where
  | WEAK | MEDIUM | STRONG | EXCELLENT | PERFECT
deriving DecidableEq, Repr

/-- The index of a strength label in the backtester's `strength_order`
list `["WEAK", "MEDIUM", "STRONG", "EXCELLENT", "PERFECT"]`. -/
def strengthRank : Strength → ℕ
  | Strength.WEAK => 0
  | Strength.MEDIUM => 1
  | Strength.STRONG => 2
  | Strength.EXCELLENT => 3
  | Strength.PERFECT => 4

/-- `GoldbachEngine._calculate_signal_strength`. -/
def calculateSignalStrength (bias : BiasAnalysis) (gbTimeIsGoldbach : Bool)
    (amd : AMDCycle) (partitionIsKeyDay : Bool) : Strength :=
  let score : ℤ :=
    (if 70 ≤ bias.confidence then 2 else if 60 ≤ bias.confidence then 1 else 0)
    + (if gbTimeIsGoldbach then 2 else 0)
    + (if amd = AMDCycle.MANIPULATION ∨ amd = AMDCycle.DISTRIBUTION_1 then 1 else 0)
    + (if partitionIsKeyDay then 1 else 0)
    + (if bias.layer = Layer.LIQUIDITY then 1 else 0)
  if 6 ≤ score then Strength.PERFECT
  else if 5 ≤ score then Strength.EXCELLENT
  else if 4 ≤ score then Strength.STRONG
  else if 2 ≤ score then Strength.MEDIUM
  else Strength.WEAK

/-- The fields of a Python `datetime` that the engine consumes. -/
structure DTime where
  month : ℕ
  day : ℕ
  hour : ℕ
  minute : ℕ
deriving DecidableEq, Repr

/-- `TradeSetup` dataclass (symbol, reasoning strings and the mutable
status/result fields are omitted; they carry no logic). -/
structure TradeSetupL where
  id : ℕ
  timestamp : DTime
  plan : TradePlan
  bias : Bias
  confidence : ℤ
  entryZone : ℚ × ℚ
  entryPrice : ℚ
  stopLoss : ℚ
  targets : List Target
  invalidation : Invalidation
  goldbachTimeConfirm : Bool
  amdCycle : AMDCycle
  monthlyPartitionDay : ℕ
  signalStrength : Strength
deriving DecidableEq, Repr

/-- `GoldbachEngine.generate_setup`.  The engine's `setup_counter` is
threaded explicitly: the call takes the current counter and returns the
incremented counter together with the optional setup.  The counter is
incremented before the plan is determined, so a `none` result still
consumes an id. -/
def generateSetup (counter : ℕ) (price : ℚ) (po3 : ℤ) (trendDays : ℤ)
    (time : DTime) : ℕ × Option TradeSetupL :=
  let c := counter + 1
  let r := calculateRange price po3
  let position := getPosition r price
  let ba := analyzeBias price po3 trendDays
  let gbIsGoldbach := isGoldbachSum time.hour time.minute
  let amd := getAmdCycle time.hour
  let pd := partitionDay time.month time.day
  match determineTradePlan r position ba with
  | none => (c, none)
  | some planData =>
    let entryPrice := (planData.entryZone.1 + planData.entryZone.2) / 2
    let stopLoss := planData.invalidation.price
    let strength := calculateSignalStrength ba gbIsGoldbach amd (isKeyDay pd)
    (c, some
      { id := c
        timestamp := time
        plan := planData.plan
        bias := ba.bias
        confidence := ba.confidence
        entryZone := planData.entryZone
        entryPrice := entryPrice
        stopLoss := stopLoss
        targets := planData.targets
        invalidation := planData.invalidation
        goldbachTimeConfirm := gbIsGoldbach
        amdCycle := amd
        monthlyPartitionDay := pd
        signalStrength := strength })

/-! ## Backtester (from app/backtester.py) -/

inductive Direction where
  | LONG | SHORT
deriving DecidableEq, Repr

inductive ExitReason where
  | TARGET_1 | TARGET_2 | STOP_LOSS | TIME_EXIT
deriving DecidableEq, Repr

inductive TradeResult where
  | WIN | LOSS | BREAKEVEN
deriving DecidableEq, Repr

/-- `BacktestConfig` (fields with no effect on any claim — trailing stop,
`max_positions` — are omitted; the source never reads them in the run loop). -/
structure BacktestConfig where
  initialCapital : ℚ := 10000
  positionSizePct : ℚ := 1
  commission : ℚ := 0
  slippage : ℚ := 0
  useStopLoss : Bool := true
  minSignalStrength : Strength := Strength.MEDIUM
  allowedPlans : List TradePlan :=
    [TradePlan.EINSTEIN, TradePlan.LIQUIDITY, TradePlan.FLOW_CONTINUATION,
     TradePlan.FLOW_REJECTION, TradePlan.REBALANCE, TradePlan.STOP_RUN]
  allowedAmdCycles : List AMDCycle := [AMDCycle.MANIPULATION, AMDCycle.DISTRIBUTION_1]
  requireGoldbachTime : Bool := false
  maxBarsInTrade : ℕ := 50
  po3Size : ℤ := DEFAULT_PO3

/-- One OHLC bar with its timestamp. -/
structure Bar where
  time : DTime
  openPx : ℚ
  high : ℚ
  low : ℚ
  close : ℚ
deriving DecidableEq, Repr

/-- The `current_trade` dict of `run_backtest` (an open position). -/
structure OpenTr where
  id : ℕ
  entryBar : ℕ
  entryTime : DTime
  direction : Direction
  plan : TradePlan
  entryPrice : ℚ
  stopLoss : ℚ
  target1 : ℚ
  target2 : ℚ
  positionSize : ℚ
  signalStrength : Strength
  goldbachTime : Bool
  amdCycle : AMDCycle
  mae : ℚ
  mfe : ℚ
deriving DecidableEq, Repr

/-- `BacktestTrade`: an immutable completed-trade record. -/
structure ClosedTrade where
  id : ℕ
  entryTime : DTime
  exitTime : DTime
  direction : Direction
  plan : TradePlan
  entryPrice : ℚ
  exitPrice : ℚ
  stopLoss : ℚ
  target1 : ℚ
  target2 : ℚ
  positionSize : ℚ
  pnl : ℚ
  pnlPct : ℚ
  result : TradeResult
  exitReason : ExitReason
  barsHeld : ℕ
  mae : ℚ
  mfe : ℚ
  signalStrength : Strength
  goldbachTime : Bool
  amdCycle : AMDCycle
deriving DecidableEq, Repr

/-- `BacktestEngine._filter_setup`. -/
def filterSetup (cfg : BacktestConfig) (setup : TradeSetupL) : Bool :=
  decide (strengthRank cfg.minSignalStrength ≤ strengthRank setup.signalStrength)
  && setup.plan ∈ cfg.allowedPlans
  && setup.amdCycle ∈ cfg.allowedAmdCycles
  && !(cfg.requireGoldbachTime && !setup.goldbachTimeConfirm)

/-- `BacktestEngine._check_exit`: priority-ordered exit rules evaluated
against the current bar, first hit wins. -/
def checkExit (cfg : BacktestConfig) (trade : OpenTr) (high low close : ℚ)
    (currentBar : ℕ) : Option (ℚ × ExitReason) :=
  let barsHeld := currentBar - trade.entryBar
  if cfg.maxBarsInTrade ≤ barsHeld then some (close, ExitReason.TIME_EXIT)
  else if trade.direction = Direction.LONG then
    if cfg.useStopLoss = true ∧ low ≤ trade.stopLoss then
      some (trade.stopLoss, ExitReason.STOP_LOSS)
    else if trade.target2 ≤ high then some (trade.target2, ExitReason.TARGET_2)
    else if trade.target1 ≤ high then some (trade.target1, ExitReason.TARGET_1)
    else none
  else
    if cfg.useStopLoss = true ∧ trade.stopLoss ≤ high then
      some (trade.stopLoss, ExitReason.STOP_LOSS)
    else if low ≤ trade.target2 then some (trade.target2, ExitReason.TARGET_2)
    else if low ≤ trade.target1 then some (trade.target1, ExitReason.TARGET_1)
    else none

/-- `BacktestEngine._close_trade`. -/
def closeTrade (cfg : BacktestConfig) (trade : OpenTr) (exitTime : DTime)
    (exitPrice : ℚ) (exitReason : ExitReason) (barsHeld : ℕ)
    (mae mfe : ℚ) : ClosedTrade :=
  let pnl0 :=
    match trade.direction with
    | Direction.LONG => (exitPrice - trade.entryPrice) * trade.positionSize
    | Direction.SHORT => (trade.entryPrice - exitPrice) * trade.positionSize
  let pnl := pnl0 - cfg.commission * 2 - cfg.slippage * 2
  let pnlPct := pnl / trade.positionSize * 100
  let result :=
    if 0 < pnl then TradeResult.WIN
    else if pnl < 0 then TradeResult.LOSS
    else TradeResult.BREAKEVEN
  { id := trade.id, entryTime := trade.entryTime, exitTime := exitTime,
    direction := trade.direction, plan := trade.plan,
    entryPrice := trade.entryPrice, exitPrice := exitPrice,
    stopLoss := trade.stopLoss, target1 := trade.target1,
    target2 := trade.target2, positionSize := trade.positionSize,
    pnl := pnl, pnlPct := pnlPct, result := result, exitReason := exitReason,
    barsHeld := barsHeld, mae := mae, mfe := mfe,
    signalStrength := trade.signalStrength, goldbachTime := trade.goldbachTime,
    amdCycle := trade.amdCycle }

/-- The MAE/MFE update of `run_backtest` on a bar with no exit. -/
def updateExcursions (trade : OpenTr) (high low : ℚ) : OpenTr :=
  match trade.direction with
  | Direction.LONG =>
    { trade with mae := min trade.mae (low - trade.entryPrice),
                 mfe := max trade.mfe (high - trade.entryPrice) }
  | Direction.SHORT =>
    { trade with mae := min trade.mae (trade.entryPrice - high),
                 mfe := max trade.mfe (trade.entryPrice - low) }

/-- The mutable loop state of `run_backtest`: capital, the equity curve,
the optional open position, the last used trade id, the goldbach engine's
setup counter, and the trade ledger. -/
structure BtState where
  capital : ℚ
  equity : List ℚ
  inTrade : Option OpenTr
  tradeId : ℕ
  counter : ℕ
  trades : List ClosedTrade
deriving Repr

/-- Initial state of a backtest run. -/
def initState (cfg : BacktestConfig) : BtState :=
  { capital := cfg.initialCapital, equity := [cfg.initialCapital],
    inTrade := none, tradeId := 0, counter := 0, trades := [] }

/-- The open-position dict built on entry in `run_backtest`. -/
def mkOpenTrade (s : BtState) (setup : TradeSetupL) (i : ℕ) (time : DTime)
    (positionSize : ℚ) : OpenTr :=
  { id := s.tradeId + 1
    entryBar := i
    entryTime := time
    direction := if setup.bias = Bias.BULLISH then Direction.LONG else Direction.SHORT
    plan := setup.plan
    entryPrice := setup.entryPrice
    stopLoss := setup.stopLoss
    target1 := ((setup.targets.get? 0).map Target.price).getD setup.entryPrice
    target2 := ((setup.targets.get? 1).map Target.price).getD setup.entryPrice
    positionSize := positionSize
    signalStrength := setup.signalStrength
    goldbachTime := setup.goldbachTimeConfirm
    amdCycle := setup.amdCycle
    mae := 0
    mfe := 0 }

/-- One iteration of the `run_backtest` loop for bar index `i` (`i ≥ 1`),
with `prevClose` the close of bar `i-1`.  Mirrors the source exactly: when
in a trade, an exit closes it (and, via `continue`, no entry is attempted
on the same bar), otherwise MAE/MFE are updated; when flat, a setup is
generated from the previous close and opened if it passes the filters. -/
def btStep (cfg : BacktestConfig) (i : ℕ) (prevClose : ℚ) (b : Bar)
    (s : BtState) : BtState :=
  match s.inTrade with
  | some tr =>
    match checkExit cfg tr b.high b.low b.close i with
    | some ex =>
      let t := closeTrade cfg tr b.time ex.1 ex.2 (i - tr.entryBar) tr.mae tr.mfe
      { s with trades := s.trades ++ [t]
               capital := s.capital + t.pnl
               equity := s.equity ++ [s.capital + t.pnl]
               inTrade := none }
    | none => { s with inTrade := some (updateExcursions tr b.high b.low) }
  | none =>
    match generateSetup s.counter prevClose cfg.po3Size 0 b.time with
    | (c, some setup) =>
      if filterSetup cfg setup then
        { s with counter := c
                 tradeId := s.tradeId + 1
                 inTrade := some (mkOpenTrade s setup i b.time
                   (s.capital * cfg.positionSizePct / 100)) }
      else { s with counter := c }
    | (c, none) => { s with counter := c }

/-- The bar loop of `run_backtest`: bars are processed from index 1,
each step receiving the previous bar's close. -/
def btRunAux (cfg : BacktestConfig) : ℕ → ℚ → List Bar → BtState → BtState
  | _, _, [], s => s
  | i, prevClose, b :: bs, s =>
    btRunAux cfg (i + 1) b.close bs (btStep cfg i prevClose b s)

/-- `BacktestEngine.run_backtest` (returning the final loop state rather
than the derived statistics): run the bar loop, then force-close any open
position at the final close with reason TIME_EXIT. -/
def runBacktest (cfg : BacktestConfig) (data : List Bar) : BtState :=
  match data with
  | [] => initState cfg
  | b0 :: rest =>
    let s := btRunAux cfg 1 b0.close rest (initState cfg)
    match s.inTrade with
    | some tr =>
      let lastBar := List.getLast (b0 :: rest) (List.cons_ne_nil b0 rest)
      let t := closeTrade cfg tr lastBar.time lastBar.close ExitReason.TIME_EXIT
        ((b0 :: rest).length - tr.entryBar) tr.mae tr.mfe
      { s with trades := s.trades ++ [t]
               capital := s.capital + t.pnl
               equity := s.equity ++ [s.capital + t.pnl]
               inTrade := none }
    | none => s

/-- The sequence of open-position states observed after each bar of the
loop (the IN-POSITION/FLAT trace of the run). -/
def inTradeTrace (cfg : BacktestConfig) : ℕ → ℚ → List Bar → BtState →
    List (Option OpenTr)
  | _, _, [], _ => []
  | i, prevClose, b :: bs, s =>
    (btStep cfg i prevClose b s).inTrade ::
      inTradeTrace cfg (i + 1) b.close bs (btStep cfg i prevClose b s)

/-- Count of completed IN-POSITION→FLAT transitions along a trace whose
state before the first element is `prev`; a run ending IN-POSITION counts
one final (forced-close) transition. -/
def closureCount : Option OpenTr → List (Option OpenTr) → ℕ
  | prev, [] => if prev.isSome then 1 else 0
  | prev, cur :: rest =>
    (if prev.isSome ∧ cur.isNone then 1 else 0) + closureCount cur rest

/-- The number of FLAT→IN-POSITION→FLAT transitions performed by
`run_backtest` on `data`, counting the forced close at series end. -/
def transitionCount (cfg : BacktestConfig) (data : List Bar) : ℕ :=
  match data with
  | [] => 0
  | b0 :: rest => closureCount none (inTradeTrace cfg 1 b0.close rest (initState cfg))

/-! ## Monte Carlo -/

/-- One step of the synthetic-equity replay inside `monte_carlo`:
state is (equity, peak, max drawdown pct). -/
def mcSimStep : ℚ × ℚ × ℚ → ℚ → ℚ × ℚ × ℚ :=
  fun st pnl =>
    let equity := st.1 + pnl
    let peak := if st.2.1 < equity then equity else st.2.1
    let dd := (peak - equity) / peak * 100
    (equity, peak, max st.2.2 dd)

/-- One Monte Carlo simulation over a shuffled P&L sequence, starting from
`initialCapital`; returns (final equity, peak, max drawdown pct). -/
def mcSim (initialCapital : ℚ) (shuffled : List ℚ) : ℚ × ℚ × ℚ :=
  shuffled.foldl mcSimStep (initialCapital, initialCapital, 0)

/-- The parts of `monte_carlo`'s result dict that the claims speak about. -/
structure MCResult where
  finalCapitals : List ℚ
  maxDrawdowns : List ℚ
  meanFinal : ℚ
  riskOfRuin : ℚ
deriving Repr

/-- `BacktestEngine.monte_carlo`, with the random permutations supplied
explicitly as `shuffles` (one list per simulation, each a permutation of
the ledger's P&L sequence produced by `np.random.permutation`).
`risk_of_ruin` is `count(final ≤ 0) / num_simulations * 100` as in the
source. -/
def monteCarlo (initialCapital : ℚ) (shuffles : List (List ℚ)) : MCResult :=
  let finals := shuffles.map (fun s => (mcSim initialCapital s).1)
  let dds := shuffles.map (fun s => (mcSim initialCapital s).2.2)
  { finalCapitals := finals
    maxDrawdowns := dds
    meanFinal := finals.sum / (finals.length : ℚ)
    riskOfRuin :=
      ((finals.countP (fun fc => decide (fc ≤ 0)) : ℚ) / (shuffles.length : ℚ)) * 100 }

/-! ## Derived notions used in claim statements -/

/-- The positions for which `_get_layer_for_position` returns `None`:
strictly between 17 and 29, 35 and 41, 59 and 65, or 71 and 83. -/
def inNoLayerBand (position : ℚ) : Prop :=
  (17 < position ∧ position < 29) ∨ (35 < position ∧ position < 41) ∨
  (59 < position ∧ position < 65) ∨ (71 < position ∧ position < 83)

instance (position : ℚ) : Decidable (inNoLayerBand position) := by
  unfold inNoLayerBand; infer_instance

/-- The arguments of one `generate_setup` call. -/
structure CallInput where
  price : ℚ
  po3 : ℤ
  trendDays : ℤ
  time : DTime
deriving DecidableEq, Repr

/-- A sequence of `generate_setup` calls on one engine instance, threading
the setup counter; returns the final counter and the per-call results. -/
def runSetupCalls (counter : ℕ) : List CallInput → ℕ × List (Option TradeSetupL)
  | [] => (counter, [])
  | inp :: rest =>
    let r := generateSetup counter inp.price inp.po3 inp.trendDays inp.time
    let rest' := runSetupCalls r.1 rest
    (rest'.1, r.2 :: rest'.2)

/-! ## Example inputs shared by several witnesses -/

/-- A backtest configuration with all defaults (stop-loss enabled,
50-bar time limit). -/
def cfgEx : BacktestConfig := {}

/-- The LONG trade of the spec's worked example: entry 100, stop 90,
first target 110, second target 120, entered at bar 0. -/
def trEx : OpenTr :=
  { id := 1, entryBar := 0, entryTime := ⟨1, 15, 10, 30⟩,
    direction := Direction.LONG, plan := TradePlan.EINSTEIN,
    entryPrice := 100, stopLoss := 90, target1 := 110, target2 := 120,
    positionSize := 100, signalStrength := Strength.MEDIUM,
    goldbachTime := false, amdCycle := AMDCycle.DISTRIBUTION_1,
    mae := 0, mfe := 0 }

/-- A bias-analysis value with BULLISH direction, for plan-table witnesses. -/
def biasEx : BiasAnalysis :=
  { bias := Bias.BULLISH, confidence := 65, gipLevel := 17, position := 15,
    layer := Layer.LIQUIDITY }

/-- A `generate_setup` call argument used by witnesses: price 21500 in the
default 729 bracket (position ≈ 49.2, REBALANCE plan) on Jan 15, 10:30. -/
def inpEx : CallInput := ⟨21500, 729, 0, ⟨1, 15, 10, 30⟩⟩

/-! ## Theorems -/

/-- Claim C3: plan selection is first-match-wins over the priority-ordered
rule table.  Whenever `position ≤ 17` and the bias is BULLISH — in
particular at position 15, and also for position ≤ 11 where rule 3's band
holds as well — the first rule fires and returns the EINSTEIN plan with
entry zone at levels [11,17], targets at levels [47,59] and invalidation
at level 7; no later rule (in particular the LIQUIDITY plan of rule 3)
can override it. -/
theorem determineTradePlan_first_match_einstein (r : PO3Range)
    (b : BiasAnalysis) (position : ℚ)
    (hpos : position ≤ 17) (hb : b.bias = Bias.BULLISH) :
    determineTradePlan r position b =
      some { plan := TradePlan.EINSTEIN
             entryZone := (getLevelPrice r 11, getLevelPrice r 17)
             targets := [⟨47, getLevelPrice r 47⟩, ⟨59, getLevelPrice r 59⟩]
             invalidation := ⟨7, getLevelPrice r 7⟩ } ∧
    ∀ pd, determineTradePlan r position b = some pd →
      pd.plan ≠ TradePlan.LIQUIDITY := by
  have h1 : determineTradePlan r position b =
      some { plan := TradePlan.EINSTEIN
             entryZone := (getLevelPrice r 11, getLevelPrice r 17)
             targets := [⟨47, getLevelPrice r 47⟩, ⟨59, getLevelPrice r 59⟩]
             invalidation := ⟨7, getLevelPrice r 7⟩ } := by
    unfold determineTradePlan
    rw [if_pos ⟨hpos, hb⟩]
  refine ⟨h1, fun pd hpd => ?_⟩
  rw [h1, Option.some.injEq] at hpd
  rw [← hpd]
  simp

/-- Witness for C3 at the claim's concrete reading: position 15 with a
BULLISH bias selects the EINSTEIN plan, never the LIQUIDITY plan. -/
theorem determineTradePlan_first_match_einstein_witness :
    determineTradePlan (calculateRange 21150 729) 15 biasEx =
      some { plan := TradePlan.EINSTEIN
             entryZone := (getLevelPrice (calculateRange 21150 729) 11,
                           getLevelPrice (calculateRange 21150 729) 17)
             targets := [⟨47, getLevelPrice (calculateRange 21150 729) 47⟩,
                         ⟨59, getLevelPrice (calculateRange 21150 729) 59⟩]
             invalidation := ⟨7, getLevelPrice (calculateRange 21150 729) 7⟩ } ∧
    ∀ pd, determineTradePlan (calculateRange 21150 729) 15 biasEx = some pd →
      pd.plan ≠ TradePlan.LIQUIDITY :=
  determineTradePlan_first_match_einstein (calculateRange 21150 729) biasEx 15
    (by norm_num) rfl

/-- Claim C2: with stop-loss checking enabled, `_check_exit` applies the
exit rules in fixed priority order — time exit, stop-loss, second target,
first target — returning at the first hit, for both LONG and SHORT
positions. -/
theorem checkExit_priority (cfg : BacktestConfig) (trade : OpenTr)
    (high low close : ℚ) (bar : ℕ) (hsl : cfg.useStopLoss = true) :
    (cfg.maxBarsInTrade ≤ bar - trade.entryBar →
      checkExit cfg trade high low close bar = some (close, ExitReason.TIME_EXIT)) ∧
    (bar - trade.entryBar < cfg.maxBarsInTrade → trade.direction = Direction.LONG →
      (low ≤ trade.stopLoss →
        checkExit cfg trade high low close bar =
          some (trade.stopLoss, ExitReason.STOP_LOSS)) ∧
      (trade.stopLoss < low → trade.target2 ≤ high →
        checkExit cfg trade high low close bar =
          some (trade.target2, ExitReason.TARGET_2)) ∧
      (trade.stopLoss < low → high < trade.target2 → trade.target1 ≤ high →
        checkExit cfg trade high low close bar =
          some (trade.target1, ExitReason.TARGET_1))) ∧
    (bar - trade.entryBar < cfg.maxBarsInTrade → trade.direction = Direction.SHORT →
      (trade.stopLoss ≤ high →
        checkExit cfg trade high low close bar =
          some (trade.stopLoss, ExitReason.STOP_LOSS)) ∧
      (high < trade.stopLoss → low ≤ trade.target2 →
        checkExit cfg trade high low close bar =
          some (trade.target2, ExitReason.TARGET_2)) ∧
      (high < trade.stopLoss → trade.target2 < low → low ≤ trade.target1 →
        checkExit cfg trade high low close bar =
          some (trade.target1, ExitReason.TARGET_1))) := by
  refine ⟨fun htime => ?_, fun htime hdir => ?_, fun htime hdir => ?_⟩
  · unfold checkExit
    rw [if_pos htime]
  · unfold checkExit
    rw [if_neg (by omega), if_pos hdir]
    refine ⟨fun hstop => ?_, fun hstop ht2 => ?_, fun hstop ht2 ht1 => ?_⟩
    · rw [if_pos ⟨hsl, hstop⟩]
    · rw [if_neg (fun hc => absurd hc.2 (not_le.mpr hstop)), if_pos ht2]
    · rw [if_neg (fun hc => absurd hc.2 (not_le.mpr hstop)),
        if_neg (not_le.mpr ht2), if_pos ht1]
  · unfold checkExit
    rw [if_neg (by omega), if_neg (by rw [hdir]; exact fun h => Direction.noConfusion h)]
    refine ⟨fun hstop => ?_, fun hstop ht2 => ?_, fun hstop ht2 ht1 => ?_⟩
    · rw [if_pos ⟨hsl, hstop⟩]
    · rw [if_neg (fun hc => absurd hc.2 (not_le.mpr hstop)), if_pos ht2]
    · rw [if_neg (fun hc => absurd hc.2 (not_le.mpr hstop)),
        if_neg (not_le.mpr ht2), if_pos ht1]

/-- Witness for C2, the claim's worked example: a LONG entered at 100 with
stop 90 and second target 120, on a bar with high 125 and low 95 after 5
bars, exits at 120 with reason TARGET_2 (not the stop, not time-exit). -/
theorem checkExit_priority_witness :
    checkExit cfgEx trEx 125 95 118 5 = some (120, ExitReason.TARGET_2) := by
  have h := (checkExit_priority cfgEx trEx 125 95 118 5 rfl).2.1
    (by decide) rfl
  exact h.2.1 (by decide) (by decide)

/-- Claim C9: for a price whose position falls outside all three layer
bands, `analyze_bias` silently replaces the `None` layer with the FLOW
fallback, while the confidence receives no layer bonus: it is exactly the
clamp to [40,85] of 50 plus the trend adjustment. -/
theorem analyzeBias_none_layer_becomes_flow (price : ℚ) (po3 : ℤ)
    (trendDays : ℤ)
    (h : inNoLayerBand (getPosition (calculateRange price po3) price)) :
    (analyzeBias price po3 trendDays).layer = Layer.FLOW ∧
    (analyzeBias price po3 trendDays).confidence =
      max 40 (min 85 (50 + trendAdjust (analyzeBias price po3 trendDays).bias trendDays)) := by
  set pos := getPosition (calculateRange price po3) price with hpos
  have h17 : ¬ pos ≤ 17 := by
    rcases h with ⟨a, b⟩ | ⟨a, b⟩ | ⟨a, b⟩ | ⟨a, b⟩ <;> push_neg <;> linarith
  have h83 : ¬ 83 ≤ pos := by
    rcases h with ⟨a, b⟩ | ⟨a, b⟩ | ⟨a, b⟩ | ⟨a, b⟩ <;> push_neg <;> linarith
  have hn1 : ¬ (pos ≤ 17 ∨ 83 ≤ pos) := by
    rintro (hc | hc)
    exacts [h17 hc, h83 hc]
  have hn2 : ¬ ((29 ≤ pos ∧ pos ≤ 35) ∨ (65 ≤ pos ∧ pos ≤ 71)) := by
    rcases h with ⟨a, b⟩ | ⟨a, b⟩ | ⟨a, b⟩ | ⟨a, b⟩ <;>
      rintro (⟨c, d⟩ | ⟨c, d⟩) <;> linarith
  have hn3 : ¬ (41 ≤ pos ∧ pos ≤ 59) := by
    rcases h with ⟨a, b⟩ | ⟨a, b⟩ | ⟨a, b⟩ | ⟨a, b⟩ <;>
      rintro ⟨c, d⟩ <;> linarith
  have hlayer : getLayerForPosition pos = none := by
    unfold getLayerForPosition
    rw [if_neg hn1, if_neg hn2, if_neg hn3]
  constructor
  · simp only [analyzeBias, ← hpos, hlayer, Option.getD_none]
  · simp only [analyzeBias, ← hpos, hlayer, if_neg hn1, add_zero]

unseal Rat.mul Rat.inv Rat.add Rat.sub in
/-- Witness for C9: the price 21286.8 (position exactly 20, inside the
(17,29) gap) with trend 0 yields layer FLOW and confidence 50. -/
theorem analyzeBias_none_layer_becomes_flow_witness :
    (analyzeBias (212868/10 : ℚ) 729 0).layer = Layer.FLOW ∧
    (analyzeBias (212868/10 : ℚ) 729 0).confidence =
      max 40 (min 85 (50 + trendAdjust (analyzeBias (212868/10 : ℚ) 729 0).bias 0)) :=
  analyzeBias_none_layer_becomes_flow (212868/10 : ℚ) 729 0 (by decide)

unseal Rat.mul Rat.inv Rat.add Rat.sub in
/-- Claim C5 (code bug): `get_level_price(bracket, 50)` is the arithmetic
midpoint of the bracket bounds for an unscaled instrument (price ≥ 100),
but NOT for a fractional-quote price below 100: there `calculate_range`
divides the bounds by 10000 while leaving `size` unscaled, and the level-50
price lands far outside the bracket instead of at its midpoint. -/
theorem getLevelPrice_midpoint_forex_bug :
    (getLevelPrice (calculateRange 21500 729) 50 =
      ((calculateRange 21500 729).low + (calculateRange 21500 729).high) / 2) ∧
    getLevelPrice (calculateRange (12345/10000 : ℚ) 729) 50 ≠
      ((calculateRange (12345/10000 : ℚ) 729).low +
        (calculateRange (12345/10000 : ℚ) 729).high) / 2 := by
  constructor
  · decide
  · decide

/-- Helper: the final equity of one Monte Carlo replay is the initial
capital plus the sum of the replayed P&Ls, whatever the running peak and
drawdown state. -/
theorem mcSim_foldl_fst (l : List ℚ) :
    ∀ st : ℚ × ℚ × ℚ, (l.foldl mcSimStep st).1 = st.1 + l.sum := by
  induction l with
  | nil => intro st; simp
  | cons a l ih =>
    intro st
    simp only [List.foldl_cons, List.sum_cons, ih]
    simp only [mcSimStep]
    ring

/-- Helper: the sum of a list of values all equal to `v` is `length * v`. -/
theorem list_sum_of_all_eq (L : List ℚ) (v : ℚ) (h : ∀ x ∈ L, x = v) :
    L.sum = (L.length : ℚ) * v := by
  induction L with
  | nil => simp
  | cons a l ih =>
    have ha : a = v := h a (List.mem_cons_self a l)
    have hl : ∀ x ∈ l, x = v := fun x hx => h x (List.mem_cons_of_mem a hx)
    simp only [List.sum_cons, List.length_cons, ih hl, ha]
    push_cast
    ring

/-- Helper: `countP` on a list of values all equal to `v`. -/
theorem list_countP_of_all_eq (p : ℚ → Bool) (L : List ℚ) (v : ℚ)
    (h : ∀ x ∈ L, x = v) :
    L.countP p = if p v then L.length else 0 := by
  induction L with
  | nil => simp
  | cons a l ih =>
    have ha : a = v := h a (List.mem_cons_self a l)
    have hl : ∀ x ∈ l, x = v := fun x hx => h x (List.mem_cons_of_mem a hx)
    rw [List.countP_cons, ih hl, ha]
    by_cases hp : p v = true
    · simp [hp]
    · simp [hp]

/-- Claim C4: every Monte Carlo simulation's final capital equals
`initial_capital` plus the permutation-invariant sum of the per-trade
P&Ls, so the mean final capital over all simulations equals
`initial_capital + total_pnl` exactly. -/
theorem monteCarlo_mean_eq_deterministic_sum (initialCapital : ℚ)
    (pnls : List ℚ) (shuffles : List (List ℚ))
    (hpnls : pnls ≠ []) (hsh : shuffles ≠ [])
    (hperm : ∀ s ∈ shuffles, s.Perm pnls) :
    (∀ s ∈ shuffles, (mcSim initialCapital s).1 = initialCapital + pnls.sum) ∧
    (monteCarlo initialCapital shuffles).meanFinal = initialCapital + pnls.sum := by
  have hfin : ∀ s ∈ shuffles,
      (mcSim initialCapital s).1 = initialCapital + pnls.sum := by
    intro s hs
    rw [mcSim, mcSim_foldl_fst, (hperm s hs).sum_eq]
  refine ⟨hfin, ?_⟩
  have hall : ∀ x ∈ shuffles.map (fun s => (mcSim initialCapital s).1),
      x = initialCapital + pnls.sum := by
    intro x hx
    rcases List.mem_map.mp hx with ⟨s, hs, rfl⟩
    exact hfin s hs
  have hlen : ((shuffles.map (fun s => (mcSim initialCapital s).1)).length : ℚ) ≠ 0 := by
    rw [List.length_map]
    exact_mod_cast fun hc => hsh (List.length_eq_zero.mp (by exact_mod_cast hc))
  unfold monteCarlo
  simp only
  rw [list_sum_of_all_eq _ _ hall]
  exact mul_div_cancel_left₀ _ hlen

unseal Rat.mul Rat.inv Rat.add Rat.sub in
/-- Witness for C4: two simulations over permutations of the P&L ledger
[5, -3] both end at 10002, and so does the mean final capital. -/
theorem monteCarlo_mean_eq_deterministic_sum_witness :
    (∀ s ∈ [[(-3 : ℚ), 5], [5, -3]], (mcSim 10000 s).1 = 10000 + [(5 : ℚ), -3].sum) ∧
    (monteCarlo 10000 [[(-3 : ℚ), 5], [5, -3]]).meanFinal = 10000 + [(5 : ℚ), -3].sum :=
  monteCarlo_mean_eq_deterministic_sum 10000 [5, -3] [[-3, 5], [5, -3]]
    (by decide) (by decide) (by decide)

unseal Rat.mul Rat.inv Rat.add Rat.sub in
/-- Counterexample for C7: with one simulation over the single-trade ledger
[-20000] from capital 10000, the returned `risk_of_ruin` is 100, while the
fraction of simulations ending at or below zero is 1 — the code reports a
percentage, not a fraction. -/
theorem monteCarlo_risk_of_ruin_not_fraction :
    (monteCarlo 10000 [[(-20000 : ℚ)]]).riskOfRuin = 100 ∧
    ((List.countP (fun fc => decide (fc ≤ 0))
        (monteCarlo 10000 [[(-20000 : ℚ)]]).finalCapitals : ℚ) /
      ((monteCarlo 10000 [[(-20000 : ℚ)]]).finalCapitals.length : ℚ)) = 1 ∧
    (monteCarlo 10000 [[(-20000 : ℚ)]]).riskOfRuin ≠
      ((List.countP (fun fc => decide (fc ≤ 0))
          (monteCarlo 10000 [[(-20000 : ℚ)]]).finalCapitals : ℚ) /
        ((monteCarlo 10000 [[(-20000 : ℚ)]]).finalCapitals.length : ℚ)) := by
  refine ⟨by decide, by decide, by decide⟩

/-- Claim C7 as amended: `risk_of_ruin` equals the fraction of simulations
whose final capital is at or below zero **times 100** (a percentage).
Since every permutation replay ends at `initial + total_pnl`, this is 100
when `initial_capital + total_pnl ≤ 0` and 0 otherwise. -/
theorem monteCarlo_risk_of_ruin_pct (initialCapital : ℚ)
    (pnls : List ℚ) (shuffles : List (List ℚ)) (hsh : shuffles ≠ [])
    (hperm : ∀ s ∈ shuffles, s.Perm pnls) :
    (monteCarlo initialCapital shuffles).riskOfRuin =
      if initialCapital + pnls.sum ≤ 0 then 100 else 0 := by
  have hfin : ∀ s ∈ shuffles,
      (mcSim initialCapital s).1 = initialCapital + pnls.sum := by
    intro s hs
    rw [mcSim, mcSim_foldl_fst, (hperm s hs).sum_eq]
  have hall : ∀ x ∈ shuffles.map (fun s => (mcSim initialCapital s).1),
      x = initialCapital + pnls.sum := by
    intro x hx
    rcases List.mem_map.mp hx with ⟨s, hs, rfl⟩
    exact hfin s hs
  have hlen : ((shuffles.length : ℚ)) ≠ 0 := by
    exact_mod_cast fun hc => hsh (List.length_eq_zero.mp (by exact_mod_cast hc))
  unfold monteCarlo
  simp only
  rw [list_countP_of_all_eq _ _ _ hall]
  by_cases hc : initialCapital + pnls.sum ≤ 0
  · rw [if_pos (by exact decide_eq_true hc), if_pos hc, List.length_map]
    rw [div_mul_eq_mul_div, div_eq_iff hlen]
    ring
  · rw [if_neg (by simpa using hc), if_neg hc]
    simp

unseal Rat.mul Rat.inv Rat.add Rat.sub in
/-- Witness for the amended C7: the single-permutation run over the ledger
[-20000] from capital 10000 has risk-of-ruin 100. -/
theorem monteCarlo_risk_of_ruin_pct_witness :
    (monteCarlo 10000 [[(-20000 : ℚ)]]).riskOfRuin =
      if (10000 : ℚ) + [(-20000 : ℚ)].sum ≤ 0 then 100 else 0 :=
  monteCarlo_risk_of_ruin_pct 10000 [-20000] [[-20000]] (by decide) (by decide)

/-- Claim C8: for any start time and any requested count N with
1 ≤ N ≤ 60, `get_next_goldbach_times` terminates with exactly N results,
and within any rolling 1440-minute day cycle there is at least one minute
whose hour+minute sum is a Goldbach number (the fact that makes the
minute-by-minute walk terminate). -/
theorem getNextGoldbachTimes_returns_count (t N : ℕ)
    (h1 : 1 ≤ N) (h2 : N ≤ 60) :
    (getNextGoldbachTimes t N).length = N ∧
    (∃ d, d < 1440 ∧ isGoldbachMinute (t + 1 + d) = true) := by
  have hlen : ∀ (n m : ℕ), (getNextGoldbachTimes m n).length = n := by
    intro n
    induction n with
    | zero => intro m; rfl
    | succ k ih =>
      intro m
      simp only [getNextGoldbachTimes, List.length_cons, ih]
  exact ⟨hlen N t, goldbachMinuteExistsBounded t⟩

/-- Witness for C8: starting at midnight, asking for 5 Goldbach times
returns exactly 5. -/
theorem getNextGoldbachTimes_returns_count_witness :
    (getNextGoldbachTimes 0 5).length = 5 :=
  (getNextGoldbachTimes_returns_count 0 5 (by decide) (by decide)).1

/-- Helper: every `generate_setup` call increments the counter by one,
whether or not a setup is produced. -/
theorem generateSetup_counter_succ (counter : ℕ) (price : ℚ) (po3 : ℤ)
    (trendDays : ℤ) (time : DTime) :
    (generateSetup counter price po3 trendDays time).1 = counter + 1 := by
  cases hpl : determineTradePlan (calculateRange price po3)
      (getPosition (calculateRange price po3) price)
      (analyzeBias price po3 trendDays) with
  | none => simp [generateSetup, hpl]
  | some pd => simp [generateSetup, hpl]

/-- Helper: a setup returned by `generate_setup` carries the incremented
counter as its id. -/
theorem generateSetup_id_eq (counter : ℕ) (price : ℚ) (po3 : ℤ)
    (trendDays : ℤ) (time : DTime) (st : TradeSetupL)
    (h : (generateSetup counter price po3 trendDays time).2 = some st) :
    st.id = counter + 1 := by
  cases hpl : determineTradePlan (calculateRange price po3)
      (getPosition (calculateRange price po3) price)
      (analyzeBias price po3 trendDays) with
  | none => simp [generateSetup, hpl] at h
  | some pd =>
    simp only [generateSetup, hpl, Option.some.injEq] at h
    rw [← h]

/-- Helper: unfolding one call of `runSetupCalls`. -/
theorem runSetupCalls_cons (counter : ℕ) (inp : CallInput) (rest : List CallInput) :
    runSetupCalls counter (inp :: rest) =
      ((runSetupCalls (generateSetup counter inp.price inp.po3 inp.trendDays inp.time).1
          rest).1,
       (generateSetup counter inp.price inp.po3 inp.trendDays inp.time).2 ::
        (runSetupCalls (generateSetup counter inp.price inp.po3 inp.trendDays inp.time).1
          rest).2) := rfl

/-- Claim C10: every `generate_setup` call consumes exactly one id — the
final counter after a sequence of calls is the initial counter plus the
number of calls, including calls that return no setup — and the setup
returned by the i-th call (when any) has id `counter + i + 1`, so the ids
of returned setups are strictly increasing but skip over ids consumed by
'no trade' calls. -/
theorem generateSetup_consumes_id (counter : ℕ) (inputs : List CallInput) :
    (runSetupCalls counter inputs).1 = counter + inputs.length ∧
    (runSetupCalls counter inputs).2.length = inputs.length ∧
    ∀ i (hi : i < (runSetupCalls counter inputs).2.length),
      ((runSetupCalls counter inputs).2.get ⟨i, hi⟩).map TradeSetupL.id =
        ((runSetupCalls counter inputs).2.get ⟨i, hi⟩).map (fun _ => counter + i + 1) := by
  induction inputs generalizing counter with
  | nil =>
    refine ⟨rfl, rfl, fun i hi => ?_⟩
    exact absurd hi (by simp [runSetupCalls])
  | cons inp rest ih =>
    obtain ⟨ih1, ih2, ih3⟩ :=
      ih (generateSetup counter inp.price inp.po3 inp.trendDays inp.time).1
    have hc := generateSetup_counter_succ counter inp.price inp.po3 inp.trendDays inp.time
    refine ⟨?_, ?_, ?_⟩
    · show (runSetupCalls (generateSetup counter inp.price inp.po3 inp.trendDays inp.time).1
        rest).1 = counter + (inp :: rest).length
      rw [ih1, hc, List.length_cons]
      omega
    · show ((generateSetup counter inp.price inp.po3 inp.trendDays inp.time).2 ::
        (runSetupCalls (generateSetup counter inp.price inp.po3 inp.trendDays inp.time).1
          rest).2).length = (inp :: rest).length
      rw [List.length_cons, List.length_cons, ih2]
    · intro i hi
      simp only [runSetupCalls_cons] at hi ⊢
      match i, hi with
      | 0, hi =>
        simp only [List.get]
        cases hopt : (generateSetup counter inp.price inp.po3 inp.trendDays inp.time).2 with
        | none => rfl
        | some st =>
          have := generateSetup_id_eq counter inp.price inp.po3 inp.trendDays inp.time st hopt
          simp [this]
      | j + 1, hi =>
        simp only [List.get]
        have hj : j < (runSetupCalls
            (generateSetup counter inp.price inp.po3 inp.trendDays inp.time).1
              rest).2.length := by simpa using hi
        have h := ih3 j hj
        have hfun : (fun _ : TradeSetupL => counter + (j + 1) + 1) =
            (fun _ : TradeSetupL =>
              (generateSetup counter inp.price inp.po3 inp.trendDays inp.time).1 + j + 1) := by
          funext x
          omega
        rw [hfun]
        exact h

unseal Rat.mul Rat.inv Rat.add Rat.sub in
/-- Witness for C10: one call at price 21500 (which returns a setup)
starting from counter 0 ends with counter 1 and a setup whose id is 1. -/
theorem generateSetup_consumes_id_witness :
    (runSetupCalls 0 [inpEx]).1 = 0 + [inpEx].length ∧
    (runSetupCalls 0 [inpEx]).2.length = [inpEx].length ∧
    ((runSetupCalls 0 [inpEx]).2.get ⟨0, by decide⟩).map TradeSetupL.id =
      ((runSetupCalls 0 [inpEx]).2.get ⟨0, by decide⟩).map (fun _ => 0 + 0 + 1) :=
  ⟨(generateSetup_consumes_id 0 [inpEx]).1,
   (generateSetup_consumes_id 0 [inpEx]).2.1,
   (generateSetup_consumes_id 0 [inpEx]).2.2 0 (by decide)⟩

/-- Helper: one backtest step appends a trade to the ledger exactly when
the step closes the open position (IN-POSITION before, FLAT after). -/
theorem btStep_trades_length (cfg : BacktestConfig) (i : ℕ) (pc : ℚ)
    (b : Bar) (s : BtState) :
    (btStep cfg i pc b s).trades.length =
      s.trades.length +
        (if s.inTrade.isSome ∧ (btStep cfg i pc b s).inTrade.isNone then 1 else 0) := by
  cases hin : s.inTrade with
  | some tr =>
    cases hce : checkExit cfg tr b.high b.low b.close i with
    | some ex => simp [btStep, hin, hce]
    | none => simp [btStep, hin, hce]
  | none =>
    rcases hgen : generateSetup s.counter pc cfg.po3Size 0 b.time with ⟨c, so⟩
    cases so with
    | some setup =>
      by_cases hf : filterSetup cfg setup
      · simp [btStep, hin, hgen, hf]
      · simp [btStep, hin, hgen, hf]
    | none => simp [btStep, hin, hgen]

/-- Helper: while a position is open, a backtest step either closes it or
keeps the same position (only updating its running MAE/MFE); it never
replaces it by a newly opened one. -/
theorem btStep_no_new_open (cfg : BacktestConfig) (i : ℕ) (pc : ℚ)
    (b : Bar) (s : BtState) (tr : OpenTr) (h : s.inTrade = some tr) :
    (btStep cfg i pc b s).inTrade = none ∨
    ∃ tr', (btStep cfg i pc b s).inTrade = some tr' ∧
      tr'.id = tr.id ∧ tr'.entryBar = tr.entryBar := by
  cases hce : checkExit cfg tr b.high b.low b.close i with
  | some ex =>
    left
    simp [btStep, h, hce]
  | none =>
    right
    refine ⟨updateExcursions tr b.high b.low, by simp [btStep, h, hce], ?_, ?_⟩ <;>
      cases htr : tr.direction <;> simp [updateExcursions, htr]

/-- Helper: along the whole bar loop, the ledger length (plus one for a
still-open position) equals the number of IN-POSITION→FLAT closures seen
on the state trace. -/
theorem btRunAux_trades_closures (cfg : BacktestConfig) :
    ∀ (bs : List Bar) (i : ℕ) (pc : ℚ) (s : BtState),
    (btRunAux cfg i pc bs s).trades.length +
      (if (btRunAux cfg i pc bs s).inTrade.isSome then 1 else 0) =
    s.trades.length + closureCount s.inTrade (inTradeTrace cfg i pc bs s) := by
  intro bs
  induction bs with
  | nil => intro i pc s; simp [btRunAux, inTradeTrace, closureCount]
  | cons b rest ih =>
    intro i pc s
    simp only [btRunAux, inTradeTrace, closureCount]
    rw [ih, btStep_trades_length cfg i pc b s, Nat.add_assoc]

/-- Claim C1: a single backtest run holds at most one open position at any
bar — while IN-POSITION a step never opens a second position, it only
closes or updates the existing one — and the number of trades in the
ledger equals the number of FLAT→IN-POSITION→FLAT transitions performed,
with the forced close at series end counted as the final transition. -/
theorem runBacktest_single_position_and_ledger (cfg : BacktestConfig) :
    (∀ data : List Bar,
      (runBacktest cfg data).trades.length = transitionCount cfg data) ∧
    (∀ (i : ℕ) (pc : ℚ) (b : Bar) (s : BtState) (tr : OpenTr),
      s.inTrade = some tr →
      (btStep cfg i pc b s).inTrade = none ∨
      ∃ tr', (btStep cfg i pc b s).inTrade = some tr' ∧
        tr'.id = tr.id ∧ tr'.entryBar = tr.entryBar) := by
  constructor
  · intro data
    cases data with
    | nil => rfl
    | cons b0 rest =>
      have h := btRunAux_trades_closures cfg rest 1 b0.close (initState cfg)
      have h0 : (initState cfg).trades = [] := rfl
      have h0' : (initState cfg).inTrade = none := rfl
      rw [h0, h0'] at h
      simp only [List.length_nil, Nat.zero_add] at h
      cases hfin : (btRunAux cfg 1 b0.close rest (initState cfg)).inTrade with
      | some tr =>
        rw [hfin] at h
        simp only [Option.isSome_some, if_true] at h
        simp only [runBacktest, transitionCount, hfin, List.length_append,
          List.length_cons, List.length_nil]
        omega
      | none =>
        rw [hfin] at h
        simp only [Option.isSome_none, Bool.false_eq_true, if_false, Nat.add_zero] at h
        simp only [runBacktest, transitionCount, hfin]
        omega
  · intro i pc b s tr h
    exact btStep_no_new_open cfg i pc b s tr h

/-- A mid-run backtest state with an open position, used by the C1 witness. -/
def stateEx : BtState :=
  { capital := 10000, equity := [10000], inTrade := some trEx,
    tradeId := 1, counter := 3, trades := [] }

/-- A concrete bar used by witnesses. -/
def barEx : Bar := ⟨⟨1, 15, 10, 30⟩, 21500, 21600, 21400, 21500⟩

/-- Witness for C1: a two-bar run satisfies the ledger/transition-count
equality, and a step taken while `stateEx` holds an open position either
closes it or keeps the same trade. -/
theorem runBacktest_single_position_and_ledger_witness :
    (runBacktest cfgEx [barEx, barEx]).trades.length =
      transitionCount cfgEx [barEx, barEx] ∧
    ((btStep cfgEx 1 21500 barEx stateEx).inTrade = none ∨
      ∃ tr', (btStep cfgEx 1 21500 barEx stateEx).inTrade = some tr' ∧
        tr'.id = trEx.id ∧ tr'.entryBar = trEx.entryBar) :=
  ⟨(runBacktest_single_position_and_ledger cfgEx).1 [barEx, barEx],
   (runBacktest_single_position_and_ledger cfgEx).2 1 21500 barEx stateEx trEx rfl⟩

/-- Helper: positivity of every admissible PO3 size. -/
theorem po3_pos_of_mem (po3 : ℤ) (h : po3 ∈ PO3_SIZES) : 0 < po3 := by
  simp only [PO3_SIZES, List.mem_cons, List.not_mem_nil, or_false] at h
  rcases h with rfl | rfl | rfl | rfl | rfl | rfl | rfl | rfl <;> norm_num

/-- Helper: floor-division bracket bounds in the integer domain:
`(q0.fdiv po3) * po3 ≤ q0 < (q0.fdiv po3) * po3 + po3`. -/
theorem fdiv_bracket_bounds (q0 po3 : ℤ) (hpos : 0 < po3) :
    (Int.fdiv q0 po3) * po3 ≤ q0 ∧ q0 < (Int.fdiv q0 po3) * po3 + po3 := by
  rw [Int.fdiv_eq_ediv _ (le_of_lt hpos)]
  have h1 := Int.emod_nonneg q0 (ne_of_gt hpos)
  have h2 := Int.emod_lt_of_pos q0 hpos
  have h3 := Int.ediv_add_emod q0 po3
  constructor <;> rw [mul_comm] <;> omega

/-- Helper: the clamped position always lies in [0, 100] when the bracket
is no wider than its nominal size. -/
theorem getPosition_bounds (r : PO3Range) (p : ℚ)
    (hsize : 0 < (r.size : ℚ)) (hwidth : r.high - r.low ≤ (r.size : ℚ)) :
    0 ≤ getPosition r p ∧ getPosition r p ≤ 100 := by
  unfold getPosition
  split_ifs with h1 h2
  · norm_num
  · norm_num
  · push_neg at h1 h2
    constructor
    · have hnum : 0 ≤ p - r.low := by linarith
      positivity
    · have h3 : (p - r.low) / (r.size : ℚ) ≤ 1 :=
        (div_le_one hsize).mpr (by linarith)
      calc (p - r.low) / (r.size : ℚ) * 100 ≤ 1 * 100 := by
            apply mul_le_mul_of_nonneg_right h3
            norm_num
        _ = 100 := by norm_num

/-- Helper: the fields of `calculate_range` on the fractional-quote path
(price < 100): bounds are the scaled-down integer bracket. -/
theorem calculateRange_fields_lt (p : ℚ) (po3 : ℤ) (h0 : 0 ≤ p) (hlt : p < 100) :
    (calculateRange p po3).low =
      ((Int.fdiv ⌊p * 10000⌋ po3 * po3 : ℤ) : ℚ) / 10000 ∧
    (calculateRange p po3).high =
      ((Int.fdiv ⌊p * 10000⌋ po3 * po3 + po3 : ℤ) : ℚ) / 10000 ∧
    (calculateRange p po3).size = po3 := by
  have hnn : ¬ p * 10000 < 0 := not_lt.mpr (by positivity)
  refine ⟨?_, ?_, ?_⟩ <;>
    simp only [calculateRange, pyInt, hlt, hnn, if_true, ite_true, if_false, ite_false]

/-- Helper: the fields of `calculate_range` on the integer path
(price ≥ 100): bounds are the integer bracket of `⌊p⌋`. -/
theorem calculateRange_fields_ge (p : ℚ) (po3 : ℤ) (hge : ¬ p < 100) :
    (calculateRange p po3).low = ((Int.fdiv ⌊p⌋ po3 * po3 : ℤ) : ℚ) ∧
    (calculateRange p po3).high = ((Int.fdiv ⌊p⌋ po3 * po3 + po3 : ℤ) : ℚ) ∧
    (calculateRange p po3).size = po3 := by
  have hnn : ¬ p < 0 := by push_neg at hge ⊢; linarith
  refine ⟨?_, ?_, ?_⟩ <;>
    simp only [calculateRange, pyInt, hge, hnn, if_true, ite_true, if_false, ite_false]

/-- Claim C6: for every nonnegative price and every bracket size from the
fixed PO3 set, the computed position lies in [0,100]; the bracket contains
the price (`low ≤ p < high`, where `high` is `low + size` on the integer
path and `low + size/10000` on the rescaled fractional path); and a price
exactly at `high` maps to the next bracket: its own bracket's low equals
the previous bracket's high (within either pricing regime). -/
theorem calculateRange_position_bracket (po3 : ℤ) (hpo3 : po3 ∈ PO3_SIZES)
    (p : ℚ) (hp : 0 ≤ p) :
    (0 ≤ getPosition (calculateRange p po3) p ∧
      getPosition (calculateRange p po3) p ≤ 100) ∧
    ((calculateRange p po3).low ≤ p ∧ p < (calculateRange p po3).high) ∧
    (100 ≤ p →
      (calculateRange p po3).high = (calculateRange p po3).low + (po3 : ℚ)) ∧
    (p < 100 →
      (calculateRange p po3).high =
        (calculateRange p po3).low + (po3 : ℚ) / 10000) ∧
    (100 ≤ p →
      (calculateRange (calculateRange p po3).high po3).low =
        (calculateRange p po3).high) ∧
    (p < 100 → (calculateRange p po3).high < 100 →
      (calculateRange (calculateRange p po3).high po3).low =
        (calculateRange p po3).high) := by
  have hpos := po3_pos_of_mem po3 hpo3
  have hposQ : (0:ℚ) < (po3:ℚ) := by exact_mod_cast hpos
  by_cases hlt : p < 100
  · -- fractional-quote path
    obtain ⟨hlow, hhigh, hsize⟩ := calculateRange_fields_lt p po3 hp hlt
    obtain ⟨hbl, hbu⟩ := fdiv_bracket_bounds ⌊p * 10000⌋ po3 hpos
    have hfl : ((⌊p * 10000⌋ : ℤ) : ℚ) ≤ p * 10000 := Int.floor_le _
    have hfu : p * 10000 < ((⌊p * 10000⌋ : ℤ) : ℚ) + 1 := Int.lt_floor_add_one _
    have hblQ : ((Int.fdiv ⌊p * 10000⌋ po3 * po3 : ℤ) : ℚ) ≤
        ((⌊p * 10000⌋ : ℤ) : ℚ) := by exact_mod_cast hbl
    have hbuQ : ((⌊p * 10000⌋ : ℤ) : ℚ) + 1 ≤
        ((Int.fdiv ⌊p * 10000⌋ po3 * po3 + po3 : ℤ) : ℚ) := by exact_mod_cast hbu
    have hlow_le : (calculateRange p po3).low ≤ p := by
      rw [hlow, div_le_iff₀ (by norm_num : (0:ℚ) < 10000)]
      linarith
    have hlt_high : p < (calculateRange p po3).high := by
      rw [hhigh, lt_div_iff₀ (by norm_num : (0:ℚ) < 10000)]
      linarith
    have hwidth : (calculateRange p po3).high - (calculateRange p po3).low =
        (po3 : ℚ) / 10000 := by
      rw [hlow, hhigh]
      push_cast
      ring
    refine ⟨?_, ⟨hlow_le, hlt_high⟩, ?_, ?_, ?_, ?_⟩
    · apply getPosition_bounds
      · rw [hsize]; exact hposQ
      · rw [hsize]
        have h4 : (0:ℚ) ≤ (po3 : ℚ) := le_of_lt hposQ
        linarith [hwidth]
    · intro hge; linarith
    · intro _; linarith [hwidth]
    · intro hge; linarith
    · intro _ hh
      have hdnn : 0 ≤ Int.fdiv ⌊p * 10000⌋ po3 := by
        rw [Int.fdiv_eq_ediv _ (le_of_lt hpos)]
        exact Int.ediv_nonneg (Int.floor_nonneg.mpr (by positivity)) (le_of_lt hpos)
      have hrlnn : (0:ℤ) ≤ Int.fdiv ⌊p * 10000⌋ po3 * po3 + po3 := by
        have := mul_nonneg hdnn (le_of_lt hpos)
        omega
      rw [hhigh] at hh ⊢
      have hHnn : (0:ℚ) ≤
          ((Int.fdiv ⌊p * 10000⌋ po3 * po3 + po3 : ℤ) : ℚ) / 10000 := by
        have h6 : (0:ℚ) ≤ ((Int.fdiv ⌊p * 10000⌋ po3 * po3 + po3 : ℤ) : ℚ) := by
          exact_mod_cast hrlnn
        exact div_nonneg h6 (by norm_num)
      obtain ⟨hlow2, _, _⟩ := calculateRange_fields_lt
        (((Int.fdiv ⌊p * 10000⌋ po3 * po3 + po3 : ℤ) : ℚ) / 10000) po3 hHnn hh
      rw [hlow2]
      have hmul : ((Int.fdiv ⌊p * 10000⌋ po3 * po3 + po3 : ℤ) : ℚ) / 10000 * 10000 =
          ((Int.fdiv ⌊p * 10000⌋ po3 * po3 + po3 : ℤ) : ℚ) := by
        field_simp
      have hfloor2 :
          ⌊((Int.fdiv ⌊p * 10000⌋ po3 * po3 + po3 : ℤ) : ℚ) / 10000 * 10000⌋ =
            Int.fdiv ⌊p * 10000⌋ po3 * po3 + po3 := by
        rw [hmul, Int.floor_intCast]
      rw [hfloor2]
      have hfd : Int.fdiv (Int.fdiv ⌊p * 10000⌋ po3 * po3 + po3) po3 =
          Int.fdiv ⌊p * 10000⌋ po3 + 1 := by
        rw [Int.fdiv_eq_ediv _ (le_of_lt hpos)]
        have h7 : Int.fdiv ⌊p * 10000⌋ po3 * po3 + po3 =
            (Int.fdiv ⌊p * 10000⌋ po3 + 1) * po3 := by ring
        rw [h7, Int.mul_ediv_cancel _ (ne_of_gt hpos)]
      rw [hfd]
      push_cast
      ring
  · -- integer path
    obtain ⟨hlow, hhigh, hsize⟩ := calculateRange_fields_ge p po3 hlt
    obtain ⟨hbl, hbu⟩ := fdiv_bracket_bounds ⌊p⌋ po3 hpos
    have hfl : ((⌊p⌋ : ℤ) : ℚ) ≤ p := Int.floor_le _
    have hfu : p < ((⌊p⌋ : ℤ) : ℚ) + 1 := Int.lt_floor_add_one _
    have hblQ : ((Int.fdiv ⌊p⌋ po3 * po3 : ℤ) : ℚ) ≤ ((⌊p⌋ : ℤ) : ℚ) := by
      exact_mod_cast hbl
    have hbuQ : ((⌊p⌋ : ℤ) : ℚ) + 1 ≤
        ((Int.fdiv ⌊p⌋ po3 * po3 + po3 : ℤ) : ℚ) := by exact_mod_cast hbu
    have hlow_le : (calculateRange p po3).low ≤ p := by
      rw [hlow]
      linarith
    have hlt_high : p < (calculateRange p po3).high := by
      rw [hhigh]
      linarith
    have hwidth : (calculateRange p po3).high - (calculateRange p po3).low =
        (po3 : ℚ) := by
      rw [hlow, hhigh]
      push_cast
      ring
    refine ⟨?_, ⟨hlow_le, hlt_high⟩, ?_, ?_, ?_, ?_⟩
    · apply getPosition_bounds
      · rw [hsize]; exact hposQ
      · rw [hsize]
        linarith [hwidth]
    · intro _; linarith [hwidth]
    · intro hcon; exact absurd hcon hlt
    · intro hge
      have hq100 : (100:ℤ) ≤ ⌊p⌋ := by
        rw [Int.le_floor]
        exact_mod_cast hge
      have hH100Z : (100:ℤ) ≤ Int.fdiv ⌊p⌋ po3 * po3 + po3 := by omega
      have hH100 : ¬ ((Int.fdiv ⌊p⌋ po3 * po3 + po3 : ℤ) : ℚ) < 100 := by
        push_neg
        exact_mod_cast hH100Z
      rw [hhigh]
      obtain ⟨hlow2, _, _⟩ := calculateRange_fields_ge
        ((Int.fdiv ⌊p⌋ po3 * po3 + po3 : ℤ) : ℚ) po3 hH100
      rw [hlow2, Int.floor_intCast]
      have hfd : Int.fdiv (Int.fdiv ⌊p⌋ po3 * po3 + po3) po3 =
          Int.fdiv ⌊p⌋ po3 + 1 := by
        rw [Int.fdiv_eq_ediv _ (le_of_lt hpos)]
        have h7 : Int.fdiv ⌊p⌋ po3 * po3 + po3 =
            (Int.fdiv ⌊p⌋ po3 + 1) * po3 := by ring
        rw [h7, Int.mul_ediv_cancel _ (ne_of_gt hpos)]
      rw [hfd]
      push_cast
      ring
    · intro hcon _; exact absurd hcon hlt

/-- Witness for C6 at price 21500 with the recommended 729 bracket. -/
theorem calculateRange_position_bracket_witness :
    (0 ≤ getPosition (calculateRange 21500 729) 21500 ∧
      getPosition (calculateRange 21500 729) 21500 ≤ 100) ∧
    ((calculateRange 21500 729).low ≤ 21500 ∧
      (21500 : ℚ) < (calculateRange 21500 729).high) ∧
    ((100 : ℚ) ≤ 21500 →
      (calculateRange 21500 729).high = (calculateRange 21500 729).low + (729 : ℚ)) ∧
    ((21500 : ℚ) < 100 →
      (calculateRange 21500 729).high =
        (calculateRange 21500 729).low + (729 : ℚ) / 10000) ∧
    ((100 : ℚ) ≤ 21500 →
      (calculateRange (calculateRange 21500 729).high 729).low =
        (calculateRange 21500 729).high) ∧
    ((21500 : ℚ) < 100 → (calculateRange 21500 729).high < 100 →
      (calculateRange (calculateRange 21500 729).high 729).low =
        (calculateRange 21500 729).high) :=
  calculateRange_position_bracket 729 (by decide) 21500 (by decide)

end Goldback
